import Mathlib

/-!
Shallow embedding of `src/monitor.py` (STUDEFI availability monitor).

The program scrapes a summary page once per run to learn which residence
codes currently show availability, fetches per-residence detail pages,
extracts structured rows, diffs the freshly observed statuses against a
persisted JSON snapshot, persists the new snapshot, and sends at most one
aggregated Telegram message for the transitions found in the run.

Network, filesystem and clock are modelled as an explicit environment;
the pure control flow and data transformations are translated directly
from the source.
-/

namespace Studefi

/-- `ResourceStatus`: the two status strings the program writes into the
snapshot (`"DISPONIBLE"` / `"INDISPONIBLE"`). -/
inductive Status
  | DISPONIBLE
  | INDISPONIBLE
deriving DecidableEq, Repr

/-- The status string written into the JSON snapshot. -/
def statusStr : Status → String
  | .DISPONIBLE => "DISPONIBLE"
  | .INDISPONIBLE => "INDISPONIBLE"

/-- One entry of the `RESIDENCES` registry (`{"code", "nom", "ville"}`). -/
structure Residence where
  code : String
  nom : String
  ville : String
deriving DecidableEq, Repr

/-- `BASE_URL` from the configuration block. -/
def BASE_URL : String := "https://www.studefi.fr"

/-- `RESIDENCE_URL.format(code=code)`. -/
def residenceUrl (code : String) : String :=
  BASE_URL ++ "/main.php?srv=Residence&op=show&cdGroupe=" ++ code

/-- The static `RESIDENCES` registry from the source. -/
def RESIDENCES : List Residence :=
  [ ⟨"807G", "Algo", "Paris 13e"⟩,
    ⟨"788G", "Irène et François Joliot Curie", "Arcueil"⟩,
    ⟨"802G", "Anne Franck", "Aubervilliers"⟩,
    ⟨"804G", "Jean Moulin", "Aubervilliers"⟩,
    ⟨"794G", "Les enfants du Paradis", "Aubervilliers"⟩,
    ⟨"793G", "Roger Hanin", "Aubervilliers"⟩,
    ⟨"798G", "Sequana", "Boulogne-Billancourt"⟩,
    ⟨"797G", "Les Closbilles", "Cergy"⟩,
    ⟨"806G", "Modigliani", "Courbevoie"⟩,
    ⟨"805G", "Odyssée", "Deuil-la-Barre"⟩,
    ⟨"A812", "L\x27Alouette 2", "Drancy"⟩,
    ⟨"809G", "L\x27Alouette (étudiants)", "Drancy"⟩,
    ⟨"800G", "Victoire Daubié", "La Verrière"⟩,
    ⟨"962G", "Le Concorde", "Dugny"⟩,
    ⟨"795G", "Maurice Denis", "Le Raincy"⟩,
    ⟨"963G", "Les fils d\x27Icare (étudiants)", "Vélizy"⟩,
    ⟨"843G", "Les Fils d\x27Icare (jeunes actifs)", "Vélizy"⟩,
    ⟨"785G", "Eric Tabarly", "Massy"⟩,
    ⟨"801G", "Océane", "Massy"⟩,
    ⟨"787G", "Blaise Pascal", "Montigny-le-Bretonneux"⟩,
    ⟨"796G", "Le Galibier", "Montigny-le-Bretonneux"⟩,
    ⟨"964G", "Andrée Michel", "Montreuil"⟩,
    ⟨"789G", "Gallieni 1", "Neuilly-Plaisance"⟩,
    ⟨"799G", "Gallieni 2", "Neuilly-Plaisance"⟩,
    ⟨"803G", "Clémence Royer - Le Luzard II", "Noisiel"⟩,
    ⟨"791G", "Pierre-Gilles de Gennes", "Orsay"⟩,
    ⟨"784G", "Évariste Galois", "Paris 18e"⟩,
    ⟨"786G", "François Rabelais", "Pontoise"⟩,
    ⟨"808G", "Paulette Fost", "Saint-Ouen"⟩,
    ⟨"790G", "Les Cantilènes", "Ville d\x27Avray"⟩,
    ⟨"792G", "Camille Claudel", "Villiers-sur-Marne"⟩ ]

/-- One `AvailabilityDetail` row as built in `get_residence_details`
(`surface`, `etage`, `date_dispo`, `loyer`, `reserve_url`). -/
structure Detail where
  surface : String
  etage : String
  date_dispo : String
  loyer : String
  reserve_url : String
deriving DecidableEq, Repr

/-- One `AvailabilityUnit` dict as built in `get_residence_details`.
`details` is `none` when the `"details"` key was never created
(the source creates it only on the first appended detail row). -/
structure Logement where
  type : String
  nb_dispo : String
  surface : String
  meuble : String
  loyer : String
  details : Option (List Detail)
deriving DecidableEq, Repr

/-- One `<tr>` of a `table-tarifs-detail` table: the stripped texts of its
`<td>` cells, and the `href` of a `mini-button` anchor when one is found
(`some ""` models an anchor whose `href` attribute is missing). -/
structure DetailRow where
  cells : List String
  href : Option String
deriving DecidableEq, Repr

/-- A residence detail page, already parsed into the two structures
`get_residence_details` reads: the `table-tarifs` rows matched by
`tr` ids (as stripped `<td>` texts), or `none` when `soup.find` returns
no such table; and the `table-tarifs-detail` tables with their rows. -/
structure Doc where
  tarifsTable : Option (List (List String))
  detailTables : List (List DetailRow)
deriving DecidableEq, Repr

/-- Python `str.strip()`'s whitespace set (the ASCII part). -/
def pyWhitespace (c : Char) : Bool :=
  c == ' ' || c == '\t' || c == '\n' || c == '\r' || c == '\x0b' || c == '\x0c'

/-- `strip()`: drop leading and trailing whitespace. -/
def stripChars (l : List Char) : List Char :=
  ((l.dropWhile pyWhitespace).reverse.dropWhile pyWhitespace).reverse

/-- The post-processing applied to the fifth summary cell:
`.replace("\n", "").replace("\t", "").strip()` — replacing a one-character
pattern by the empty string removes every occurrence of that character. -/
def cleanLoyer (s : String) : String :=
  ⟨stripChars (s.data.filter (fun c => !(c == '\n' || c == '\t')))⟩

/-- One summary row (at least 5 cells) turned into a unit dict. -/
def extractRow (cols : List String) : Logement :=
  { type := cols.getD 0 ""
    nb_dispo := cols.getD 1 ""
    surface := cols.getD 2 ""
    meuble := cols.getD 3 ""
    loyer := cleanLoyer (cols.getD 4 "")
    details := none }

/-- Pass 1 of `get_residence_details`: rows with fewer than 5 cells are
skipped, the rest are appended in order. -/
def extractSummary (rows : List (List String)) : List Logement :=
  rows.foldl (fun acc cols => if cols.length < 5 then acc else acc ++ [extractRow cols]) []

/-- One detail row (at least 4 cells) turned into a detail dict;
`reserve_url` is `BASE_URL + "/" + href` when a `mini-button` anchor is
present and `""` otherwise. -/
def mkDetail (dr : DetailRow) : Detail :=
  { surface := dr.cells.getD 0 ""
    etage := dr.cells.getD 1 ""
    date_dispo := dr.cells.getD 2 ""
    loyer := dr.cells.getD 3 ""
    reserve_url :=
      match dr.href with
      | some h => BASE_URL ++ "/" ++ h
      | none => "" }

/-- `logements[-1]["details"] = logements[-1].get("details", []) + [d]`:
append a detail to the last unit; a detail hitting an empty unit list is
dropped (`if logements:` guard in the source). -/
def appendDetailLast : List Logement → Detail → List Logement
  | [], _ => []
  | [l], d => [{ l with details := some ((l.details.getD []) ++ [d]) }]
  | l :: ls, d => l :: appendDetailLast ls d

/-- Pass 2 over one `table-tarifs-detail` table: skip the header row,
skip rows with fewer than 4 cells, append the rest to the last unit. -/
def processDetailTable (acc : List Logement) (dt : List DetailRow) : List Logement :=
  (dt.drop 1).foldl
    (fun a dr => if dr.cells.length < 4 then a else appendDetailLast a (mkDetail dr)) acc

/-- `get_residence_details`, on an already-parsed page: no `table-tarifs`
table yields `[]`; otherwise pass 1 builds the units and pass 2 walks the
detail tables. -/
def get_residence_details (doc : Doc) : List Logement :=
  match doc.tarifsTable with
  | none => []
  | some rows => doc.detailTables.foldl processDetailTable (extractSummary rows)

/-- A nonempty all-digit run read as a number; anything else is `none`. -/
def digits? (l : List Char) : Option Nat :=
  if l ≠ [] ∧ l.all Char.isDigit then
    some (l.foldl (fun acc c => 10 * acc + (c.toNat - 48)) 0)
  else none

/-- Python `int(s)` on a string: strip surrounding whitespace, allow one
sign, then require a nonempty digit run; anything else raises
(`none` here). -/
def pyInt? (s : String) : Option Int :=
  match stripChars s.data with
  | '-' :: rest => (digits? rest).map (fun n => -(n : Int))
  | '+' :: rest => (digits? rest).map (fun n => (n : Int))
  | t => (digits? t).map (fun n => (n : Int))

/-- `sum(int(l.get("nb_dispo", 0)) for l in logements)`: the first
non-numeric `nb_dispo` raises `ValueError` (`none` here). -/
def sumNbDispo (ls : List Logement) : Option Int :=
  ls.foldl
    (fun acc l => do
      let a ← acc
      let n ← pyInt? l.nb_dispo
      pure (a + n))
    (some 0)

/-- The snapshot: a JSON object mapping residence code to status string,
kept as an ordered association list like a Python dict. -/
abbrev Snapshot := List (String × Status)

/-- `dict.get(code)`: the value at the first matching key. -/
def lookupStatus : Snapshot → String → Option Status
  | [], _ => none
  | p :: rest, c => if p.1 == c then some p.2 else lookupStatus rest c

/-- `state[code] = value` on a dict: replace in place when the key exists,
append otherwise. -/
def setStatus : Snapshot → String → Status → Snapshot
  | [], c, v => [(c, v)]
  | p :: rest, c, v => if p.1 == c then (c, v) :: rest else p :: setStatus rest c v

/-- `load_previous_state`: the parsed file when it exists, else `{}`. -/
def load_previous_state (file : Option Snapshot) : Snapshot :=
  file.getD []

/-- One entry of `new_availabilities`
(`{"residence", "ville", "logements", "url"}`). -/
structure Avail where
  residence : String
  ville : String
  logements : List Logement
  url : String
deriving DecidableEq, Repr

/-- The `new_availabilities` entry built for a residence. -/
def mkAvail (res : Residence) (lg : List Logement) : Avail :=
  { residence := res.nom, ville := res.ville, logements := lg, url := residenceUrl res.code }

/-- The per-unit lines of the Telegram message body. -/
def renderLogement (l : Logement) : String :=
  "   " ++ l.type ++ " | " ++ l.nb_dispo ++ " dispo | " ++ l.loyer ++ "\n" ++
    String.join ((l.details.getD []).map
      (fun d => "   → Étage " ++ d.etage ++ ", dispo " ++ d.date_dispo ++ "\n"))

/-- The per-transition block of the Telegram message body. -/
def renderAvail (a : Avail) : String :=
  "🟢 <b>" ++ a.residence ++ "</b> — " ++ a.ville ++ "\n" ++
    String.join (a.logements.map renderLogement) ++
    "   <a href=\"" ++ a.url ++ "\">Voir / Réserver</a>\n\n"

/-- The single aggregated message built in `main` when
`new_availabilities` is nonempty. -/
def buildMsg (avails : List Avail) : String :=
  "<b>🏠 STUDEFI — Nouvelles disponibilités !</b>\n\n" ++
    String.join (avails.map renderAvail)

/-- Outcome of the one `urllib` POST inside `send_telegram`. -/
inductive TgOutcome
  | delivered
  | httpError (status : Nat)
  | netError (msg : String)
deriving DecidableEq, Repr

/-- Observable effects of a run, in program order. -/
inductive Event
  | saveState (snap : Snapshot)
  | writeHtml
  | telegramCall (msg : String)
  | telegramSkipped
  | telegramSent
  | telegramFailed
  | runSummary (nbDispo : Nat)
deriving DecidableEq, Repr

/-- `send_telegram`: missing credentials short-circuit to a logged no-op;
otherwise the one POST either succeeds (status 200), logs a non-200
status, or logs the caught network exception — every case returns. -/
def send_telegram_events (configured : Bool) (outcome : TgOutcome) : List Event :=
  if configured then
    match outcome with
    | .delivered => [.telegramSent]
    | .httpError _ => [.telegramFailed]
    | .netError _ => [.telegramFailed]
  else [.telegramSkipped]

/-- The environment a run observes: the summary-scan outcome
(`get_available_codes`, including its `fetch_with_retry` failure mode),
the snapshot file contents, the per-code detail-page fetch outcome,
whether Telegram credentials are configured, and the delivery outcome. -/
structure Env where
  scanOutcome : Except String (List String)
  stateFile : Option Snapshot
  fetchDoc : String → Except String Doc
  telegramConfigured : Bool
  tgOutcome : TgOutcome

/-- The mutable locals of the per-residence loop in `main`. -/
structure LoopState where
  current : Snapshot
  results : List (Residence × List Logement)
  newAvail : List Avail
deriving Repr

/-- One iteration of the loop in `main`: record the status from the
summary scan; when flagged available, try the detail fetch, record the
results, sum the unit counts (which can raise), and test the prior
snapshot; any exception in the `try` lands in the handler that appends
`(res, [])`. -/
def processResidence (env : Env) (prev : Snapshot) (codes : List String)
    (st : LoopState) (res : Residence) : LoopState :=
  let hasDispo := codes.contains res.code
  let current := setStatus st.current res.code (if hasDispo then .DISPONIBLE else .INDISPONIBLE)
  if hasDispo then
    match env.fetchDoc res.code with
    | .error _ =>
        { current := current, results := st.results ++ [(res, [])], newAvail := st.newAvail }
    | .ok doc =>
        let logements := get_residence_details doc
        let results1 := st.results ++ [(res, logements)]
        match sumNbDispo logements with
        | none =>
            { current := current, results := results1 ++ [(res, [])], newAvail := st.newAvail }
        | some _ =>
            let prevStatus := (lookupStatus prev res.code).getD .INDISPONIBLE
            if prevStatus ≠ .DISPONIBLE then
              { current := current, results := results1,
                newAvail := st.newAvail ++ [mkAvail res logements] }
            else
              { current := current, results := results1, newAvail := st.newAvail }
  else
    { current := current, results := st.results ++ [(res, [])], newAvail := st.newAvail }

/-- The result of a run that got past the summary scan. -/
structure RunOut where
  persisted : Snapshot
  allResults : List (Residence × List Logement)
  transitions : List Avail
  events : List Event
deriving Repr

/-- `main` after a successful `get_available_codes`: the per-residence
loop, then `save_state(current_state)`, then the HTML artifact, then at
most one `send_telegram` call, then the final summary line. -/
def runLoop (rs : List Residence) (env : Env) (codes : List String) : RunOut :=
  let prev := load_previous_state env.stateFile
  let fin := rs.foldl (processResidence env prev codes) ⟨[], [], []⟩
  let tgEvents :=
    if fin.newAvail.isEmpty then []
    else .telegramCall (buildMsg fin.newAvail) ::
      send_telegram_events env.telegramConfigured env.tgOutcome
  { persisted := fin.current
    allResults := fin.results
    transitions := fin.newAvail
    events := [.saveState fin.current, .writeHtml] ++ tgEvents ++
      [.runSummary (fin.results.filter (fun p => !p.2.isEmpty)).length] }

/-- `main`: `get_available_codes` runs outside any handler, so its
failure (after `fetch_with_retry` exhausts its attempts) propagates and
aborts the run; on success the loop and everything after always run. -/
def main (rs : List Residence) (env : Env) : Except String RunOut :=
  match env.scanOutcome with
  | .error e => .error e
  | .ok codes => .ok (runLoop rs env codes)

/-- JSON string escaping for the characters that occur in status values
and residence codes (backslash and double quote). -/
def jsonEscape : List Char → List Char
  | [] => []
  | c :: cs =>
      if c == '\\' then '\\' :: '\\' :: jsonEscape cs
      else if c == '"' then '\\' :: '"' :: jsonEscape cs
      else c :: jsonEscape cs

/-- `json.dump(state, f, ensure_ascii=False, indent=2)` on the snapshot
dict: `\x7b\x7d` for the empty dict, otherwise one `"key": "value"` line
per entry at indent 2. -/
def jstr (s : String) : String :=
  ⟨'"' :: (jsonEscape s.data ++ ['"'])⟩

/-- The serialized snapshot file contents. -/
def serializeState (s : Snapshot) : String :=
  match s with
  | [] => "\x7b\x7d"
  | items =>
      "\x7b\n" ++
        String.intercalate ",\n"
          (items.map (fun p => "  " ++ jstr p.1 ++ ": " ++ jstr (statusStr p.2))) ++
        "\n\x7d"

/-- File operations `save_state` performs on the snapshot path:
`open(STATE_FILE, "w")` truncates in place, then the serialized contents
are written. -/
inductive FileOp
  | truncate
  | write (data : String)
deriving DecidableEq, Repr

/-- The operation sequence of `save_state(state)`. -/
def save_state_ops (state : Snapshot) : List FileOp :=
  [.truncate, .write (serializeState state)]

/-- File contents after one operation. -/
def applyOp (content : String) : FileOp → String
  | .truncate => ""
  | .write d => content ++ d

/-- File contents after a sequence of operations. -/
def applyOps (content : String) (ops : List FileOp) : String :=
  ops.foldl applyOp content

/-- A save is atomic from an observer's perspective when every
intermediate file state (after any prefix of its operations) is either
the old contents or the new contents. -/
def atomicSave (ops : List FileOp) (old new : String) : Prop :=
  ∀ pre suf, ops = pre ++ suf → applyOps old pre = old ∨ applyOps old pre = new

/-! ### Derived views of the loop body -/

/-- The status `main` records for a code, read off the summary scan. -/
def statusOfCode (codes : List String) (c : String) : Status :=
  if codes.contains c then .DISPONIBLE else .INDISPONIBLE

/-- The `new_availabilities` entry one loop iteration contributes:
`none` unless the code is flagged available, the detail fetch succeeds,
the unit-count sum does not raise, and the prior status differs from
`DISPONIBLE`. -/
def availOf (env : Env) (prev : Snapshot) (codes : List String) (res : Residence) :
    Option Avail :=
  if codes.contains res.code then
    match env.fetchDoc res.code with
    | .error _ => none
    | .ok doc =>
        match sumNbDispo (get_residence_details doc) with
        | none => none
        | some _ =>
            if (lookupStatus prev res.code).getD .INDISPONIBLE ≠ .DISPONIBLE then
              some (mkAvail res (get_residence_details doc))
            else none
  else none

/-- The `all_results` entries one loop iteration contributes; the
unit-count `ValueError` path appends the fetched list and then, from the
exception handler, a second empty entry. -/
def resultsOf (env : Env) (codes : List String) (res : Residence) :
    List (Residence × List Logement) :=
  if codes.contains res.code then
    match env.fetchDoc res.code with
    | .error _ => [(res, [])]
    | .ok doc =>
        match sumNbDispo (get_residence_details doc) with
        | none => [(res, get_residence_details doc), (res, [])]
        | some _ => [(res, get_residence_details doc)]
  else [(res, [])]

/-- The snapshot the loop has built after processing `rs`. -/
def foldStatus (codes : List String) (st : Snapshot) (rs : List Residence) : Snapshot :=
  rs.foldl (fun s r => setStatus s r.code (statusOfCode codes r.code)) st

/-- A transition was collected for this code in the run. -/
def firesFor (out : RunOut) (code : String) : Prop :=
  ∃ a ∈ out.transitions, a.url = residenceUrl code

/-- `Event` is a `telegramCall`. -/
def isTelegramCall : Event → Bool
  | .telegramCall _ => true
  | _ => false

lemma processResidence_eq (env : Env) (prev : Snapshot) (codes : List String)
    (st : LoopState) (res : Residence) :
    processResidence env prev codes st res =
      { current := setStatus st.current res.code (statusOfCode codes res.code)
        results := st.results ++ resultsOf env codes res
        newAvail := st.newAvail ++ (availOf env prev codes res).toList } := by
  unfold processResidence statusOfCode resultsOf availOf
  cases h : codes.contains res.code
  · simp [h]
  · simp only [h, if_true]
    cases hf : env.fetchDoc res.code with
    | error e => simp [hf]
    | ok doc =>
        cases hs : sumNbDispo (get_residence_details doc) with
        | none => simp [hf, hs]
        | some n =>
            by_cases hp : (lookupStatus prev res.code).getD .INDISPONIBLE ≠ .DISPONIBLE
            · simp [hf, hs, hp]
            · simp [hf, hs, hp]

lemma foldLoop_eq (env : Env) (prev : Snapshot) (codes : List String) :
    ∀ (rs : List Residence) (st : LoopState),
      rs.foldl (processResidence env prev codes) st =
        { current := foldStatus codes st.current rs
          results := st.results ++ rs.flatMap (resultsOf env codes)
          newAvail := st.newAvail ++ rs.filterMap (availOf env prev codes) } := by
  intro rs
  induction rs with
  | nil => intro st; simp [foldStatus]
  | cons r rs ih =>
      intro st
      rw [List.foldl_cons, processResidence_eq, ih]
      cases h : availOf env prev codes r <;>
        simp [foldStatus, List.foldl_cons, List.flatMap_cons, List.filterMap_cons, h,
          List.append_assoc]

lemma runLoop_persisted (rs : List Residence) (env : Env) (codes : List String) :
    (runLoop rs env codes).persisted = foldStatus codes [] rs := by
  simp [runLoop, foldLoop_eq]

lemma runLoop_allResults (rs : List Residence) (env : Env) (codes : List String) :
    (runLoop rs env codes).allResults = rs.flatMap (resultsOf env codes) := by
  simp [runLoop, foldLoop_eq]

lemma runLoop_transitions (rs : List Residence) (env : Env) (codes : List String) :
    (runLoop rs env codes).transitions =
      rs.filterMap (availOf env (load_previous_state env.stateFile) codes) := by
  simp [runLoop, foldLoop_eq]

lemma runLoop_events (rs : List Residence) (env : Env) (codes : List String) :
    (runLoop rs env codes).events =
      Event.saveState (runLoop rs env codes).persisted :: Event.writeHtml ::
        ((if (runLoop rs env codes).transitions.isEmpty then []
          else Event.telegramCall (buildMsg (runLoop rs env codes).transitions) ::
            send_telegram_events env.telegramConfigured env.tgOutcome) ++
          [Event.runSummary
            ((runLoop rs env codes).allResults.filter (fun p => !p.2.isEmpty)).length]) := by
  rfl

/-! ### Snapshot map lemmas -/

lemma lookupStatus_setStatus_self (s : Snapshot) (c : String) (v : Status) :
    lookupStatus (setStatus s c v) c = some v := by
  induction s with
  | nil => simp [setStatus, lookupStatus]
  | cons p rest ih =>
      cases h : p.1 == c <;> simp [setStatus, lookupStatus, h, ih]

lemma lookupStatus_setStatus_ne (s : Snapshot) (c c' : String) (v : Status)
    (h : c ≠ c') : lookupStatus (setStatus s c v) c' = lookupStatus s c' := by
  induction s with
  | nil => simp [setStatus, lookupStatus, h]
  | cons p rest ih =>
      cases hp : p.1 == c
      · simp [setStatus, lookupStatus, hp, ih]
      · have hpc : p.1 = c := by simpa using hp
        simp [setStatus, lookupStatus, hp, hpc, h]

lemma lookupStatus_foldStatus_not_mem (codes : List String) (c : String) :
    ∀ (rs : List Residence) (st : Snapshot), (∀ r ∈ rs, r.code ≠ c) →
      lookupStatus (foldStatus codes st rs) c = lookupStatus st c := by
  intro rs
  induction rs with
  | nil => intro st _; rfl
  | cons r rs ih =>
      intro st h
      rw [foldStatus, List.foldl_cons]
      rw [show List.foldl _ _ rs = foldStatus codes (setStatus st r.code (statusOfCode codes r.code)) rs from rfl]
      rw [ih _ fun r' hr' => h r' (List.mem_cons_of_mem _ hr')]
      exact lookupStatus_setStatus_ne _ _ _ _ (h r (List.mem_cons_self _ _))

lemma lookupStatus_foldStatus_mem (codes : List String) (c : String) :
    ∀ (rs : List Residence) (st : Snapshot), (∃ r ∈ rs, r.code = c) →
      lookupStatus (foldStatus codes st rs) c = some (statusOfCode codes c) := by
  intro rs
  induction rs with
  | nil => rintro st ⟨r, hr, _⟩; exact absurd hr (List.not_mem_nil r)
  | cons r rs ih =>
      rintro st ⟨r', hr', hc⟩
      rw [foldStatus, List.foldl_cons]
      rw [show List.foldl _ _ rs = foldStatus codes (setStatus st r.code (statusOfCode codes r.code)) rs from rfl]
      by_cases hex : ∃ x ∈ rs, x.code = c
      · exact ih _ hex
      · have hrc : r.code = c := by
          rcases List.mem_cons.mp hr' with h | h
          · exact h ▸ hc
          · exact absurd ⟨r', h, hc⟩ hex
        rw [lookupStatus_foldStatus_not_mem codes c rs _
          fun x hx => fun hxc => hex ⟨x, hx, hxc⟩]
        rw [hrc, lookupStatus_setStatus_self]

/-! ### Transition characterization -/

lemma string_append_cancel_left (s t u : String) (h : s ++ t = s ++ u) : t = u := by
  have hd : (s ++ t).data = (s ++ u).data := congrArg String.data h
  rw [String.data_append, String.data_append] at hd
  exact String.ext (List.append_cancel_left hd)

lemma residenceUrl_inj (c c' : String) (h : residenceUrl c = residenceUrl c') :
    c = c' := by
  unfold residenceUrl at h
  exact string_append_cancel_left _ _ _ h

lemma availOf_url (env : Env) (prev : Snapshot) (codes : List String)
    (res : Residence) (a : Avail) (h : availOf env prev codes res = some a) :
    a.url = residenceUrl res.code := by
  unfold availOf at h
  split at h
  · split at h
    · exact absurd h (by simp)
    · split at h
      · exact absurd h (by simp)
      · split at h
        · cases h
          rfl
        · exact absurd h (by simp)
  · exact absurd h (by simp)

lemma availOf_isSome_iff (env : Env) (prev : Snapshot) (codes : List String)
    (res : Residence) :
    (availOf env prev codes res).isSome ↔
      codes.contains res.code = true ∧
      (∃ doc, env.fetchDoc res.code = Except.ok doc ∧
        (sumNbDispo (get_residence_details doc)).isSome) ∧
      (lookupStatus prev res.code).getD .INDISPONIBLE ≠ .DISPONIBLE := by
  unfold availOf
  cases hc : codes.contains res.code
  · simp [hc]
  · cases hf : env.fetchDoc res.code with
    | error e => simp [hf]
    | ok doc =>
        cases hs : sumNbDispo (get_residence_details doc) with
        | none => simp [hf, hs]
        | some n =>
            by_cases hp : (lookupStatus prev res.code).getD .INDISPONIBLE ≠ .DISPONIBLE
            · simp [hf, hs, hp]
            · simp [hf, hs, hp]

lemma availOf_code_isSome (env : Env) (prev : Snapshot) (codes : List String)
    (r res : Residence) (h : r.code = res.code) :
    (availOf env prev codes r).isSome = (availOf env prev codes res).isSome := by
  unfold availOf
  rw [h]
  by_cases hc : codes.contains res.code = true
  · simp only [hc, if_true]
    cases hf : env.fetchDoc res.code with
    | error e => simp
    | ok doc =>
        cases hs : sumNbDispo (get_residence_details doc) with
        | none => simp [hs]
        | some n =>
            by_cases hp : (lookupStatus prev res.code).getD .INDISPONIBLE ≠ .DISPONIBLE <;>
              simp [hs, hp]
  · rw [if_neg hc, if_neg hc]

lemma firesFor_iff (rs : List Residence) (env : Env) (codes : List String)
    (res : Residence) (hmem : res ∈ rs) :
    firesFor (runLoop rs env codes) res.code ↔
      (availOf env (load_previous_state env.stateFile) codes res).isSome := by
  unfold firesFor
  rw [runLoop_transitions]
  constructor
  · rintro ⟨a, ha, hurl⟩
    rcases List.mem_filterMap.mp ha with ⟨r, _, hfr⟩
    have hcode : r.code = res.code :=
      residenceUrl_inj _ _ ((availOf_url _ _ _ _ _ hfr).symm.trans hurl)
    rw [← availOf_code_isSome env _ codes r res hcode, hfr]
    rfl
  · intro hsome
    rcases Option.isSome_iff_exists.mp hsome with ⟨a, ha⟩
    exact ⟨a, List.mem_filterMap.mpr ⟨res, hmem, ha⟩, availOf_url _ _ _ _ _ ha⟩

lemma availOf_fetch_congr (env env' : Env) (prev : Snapshot) (codes : List String)
    (res : Residence) (h : env'.fetchDoc res.code = env.fetchDoc res.code) :
    availOf env' prev codes res = availOf env prev codes res := by
  unfold availOf
  rw [h]

lemma filter_transitions_congr (env env' : Env) (codes : List String) (c : String)
    (hstate : env'.stateFile = env.stateFile)
    (hfetch : ∀ c', c' ≠ c → env'.fetchDoc c' = env.fetchDoc c') :
    ∀ rs : List Residence,
      (runLoop rs env' codes).transitions.filter (fun a => !(a.url == residenceUrl c)) =
        (runLoop rs env codes).transitions.filter (fun a => !(a.url == residenceUrl c)) := by
  intro rs
  rw [runLoop_transitions, runLoop_transitions, hstate]
  induction rs with
  | nil => rfl
  | cons r rs ih =>
      rw [List.filterMap_cons, List.filterMap_cons]
      by_cases hrc : r.code = c
      · have k1 : ∀ (envx : Env) (a : Avail),
            availOf envx (load_previous_state env.stateFile) codes r = some a →
            (!(a.url == residenceUrl c)) = false := by
          intro envx a ha
          have hu := availOf_url _ _ _ _ _ ha
          rw [hrc] at hu
          simp [hu]
        cases h1 : availOf env' (load_previous_state env.stateFile) codes r with
        | none =>
            cases h2 : availOf env (load_previous_state env.stateFile) codes r with
            | none => exact ih
            | some a => simp only [List.filter_cons, k1 env a h2]; simpa using ih
        | some a =>
            simp only [List.filter_cons, k1 env' a h1]
            cases h2 : availOf env (load_previous_state env.stateFile) codes r with
            | none => simpa using ih
            | some b => simp only [List.filter_cons, k1 env b h2]; simpa using ih
      · rw [availOf_fetch_congr env env' _ codes r (hfetch r.code hrc)]
        cases h : availOf env (load_previous_state env.stateFile) codes r with
        | none => exact ih
        | some a => rw [List.filter_cons, List.filter_cons, ih]

lemma mem_allResults (rs : List Residence) (env : Env) (codes : List String)
    (res : Residence) (x : Residence × List Logement) (hmem : res ∈ rs)
    (hx : x ∈ resultsOf env codes res) : x ∈ (runLoop rs env codes).allResults := by
  rw [runLoop_allResults]
  exact List.mem_flatMap.mpr ⟨res, hmem, hx⟩

lemma lookup_persisted_mem (rs : List Residence) (env : Env) (codes : List String)
    (res : Residence) (hmem : res ∈ rs) :
    lookupStatus (runLoop rs env codes).persisted res.code =
      some (statusOfCode codes res.code) := by
  rw [runLoop_persisted]
  exact lookupStatus_foldStatus_mem codes res.code rs [] ⟨res, hmem, rfl⟩

lemma lookup_persisted_not_mem (rs : List Residence) (env : Env) (codes : List String)
    (c : String) (h : ∀ r ∈ rs, r.code ≠ c) :
    lookupStatus (runLoop rs env codes).persisted c = none := by
  rw [runLoop_persisted, lookupStatus_foldStatus_not_mem codes c rs [] h]
  rfl

lemma no_refire (rs : List Residence) (env1 env2 : Env) (codes1 codes2 : List String)
    (res : Residence) (hmem : res ∈ rs) (hc1 : codes1.contains res.code = true)
    (hstate : env2.stateFile = some (runLoop rs env1 codes1).persisted) :
    ¬ firesFor (runLoop rs env2 codes2) res.code := by
  intro hfires
  have hsome := (firesFor_iff rs env2 codes2 res hmem).mp hfires
  rcases (availOf_isSome_iff _ _ _ _).mp hsome with ⟨_, _, hp⟩
  apply hp
  have hlook : lookupStatus (load_previous_state env2.stateFile) res.code =
      some (statusOfCode codes1 res.code) := by
    rw [hstate]
    exact lookup_persisted_mem rs env1 codes1 res hmem
  rw [hlook]
  have hm : res.code ∈ codes1 := by simpa using hc1
  simp [statusOfCode, hm]

/-! ### Extraction: detail rows attach to the last unit -/

/-- The detail rows of one table that pass the guards of pass 2
(header dropped, at least 4 cells). -/
def qualRows (dt : List DetailRow) : List DetailRow :=
  (dt.drop 1).filter (fun dr => decide (¬ dr.cells.length < 4))

/-- All qualifying detail entries of a page, in processing order. -/
def qualDetails (doc : Doc) : List Detail :=
  (doc.detailTables.flatMap qualRows).map mkDetail

/-- Attach a whole batch of details to one unit: the `"details"` key is
created only when at least one detail row arrives. -/
def attachAll (l : Logement) : List Detail → Logement
  | [] => l
  | ds => { l with details := some ((l.details.getD []) ++ ds) }

/-- Fold a batch of details into a unit list, one `appendDetailLast` at a
time. -/
def detailsFold (L : List Logement) (ds : List Detail) : List Logement :=
  ds.foldl appendDetailLast L

lemma appendDetailLast_concat (L0 : List Logement) :
    ∀ (u : Logement) (d : Detail),
      appendDetailLast (L0 ++ [u]) d =
        L0 ++ [{ u with details := some ((u.details.getD []) ++ [d]) }] := by
  induction L0 with
  | nil => intro u d; rfl
  | cons a L0 ih =>
      intro u d
      rw [List.cons_append, List.cons_append]
      cases h0 : L0 ++ [u] with
      | nil => exact absurd h0 (by simp)
      | cons x xs =>
          rw [show appendDetailLast (a :: x :: xs) d = a :: appendDetailLast (x :: xs) d
              from rfl,
            ← h0, ih]

lemma attachAll_cons (l : Logement) (d : Detail) (ds : List Detail) :
    attachAll l (d :: ds) =
      { l with details := some ((l.details.getD []) ++ (d :: ds)) } := rfl

lemma attachAll_step (u : Logement) (d : Detail) (ds : List Detail) :
    attachAll { u with details := some ((u.details.getD []) ++ [d]) } ds =
      attachAll u (d :: ds) := by
  cases ds with
  | nil => rfl
  | cons e es =>
      rw [attachAll_cons, attachAll_cons]
      simp [List.append_assoc]

lemma detailsFold_nil_units (ds : List Detail) : detailsFold [] ds = [] := by
  induction ds with
  | nil => rfl
  | cons d ds ih => simpa [detailsFold] using ih

lemma detailsFold_concat (L0 : List Logement) (u : Logement) (ds : List Detail) :
    detailsFold (L0 ++ [u]) ds = L0 ++ [attachAll u ds] := by
  induction ds generalizing u with
  | nil => rfl
  | cons d ds ih =>
      show detailsFold (appendDetailLast (L0 ++ [u]) d) ds = _
      rw [appendDetailLast_concat, ih, attachAll_step]

lemma detailsFold_append (L : List Logement) (ds1 ds2 : List Detail) :
    detailsFold L (ds1 ++ ds2) = detailsFold (detailsFold L ds1) ds2 :=
  List.foldl_append _ _ _ _

lemma foldRows_eq (rows : List DetailRow) :
    ∀ acc : List Logement,
      rows.foldl
          (fun a dr => if dr.cells.length < 4 then a else appendDetailLast a (mkDetail dr))
          acc =
        detailsFold acc
          ((rows.filter (fun dr => decide (¬ dr.cells.length < 4))).map mkDetail) := by
  induction rows with
  | nil => intro acc; rfl
  | cons dr rows ih =>
      intro acc
      by_cases h : dr.cells.length < 4
      · simp [h, ih, List.filter_cons, detailsFold]
      · simp [h, Nat.not_lt.mp h, ih, List.filter_cons, detailsFold]

lemma processDetailTable_eq (acc : List Logement) (dt : List DetailRow) :
    processDetailTable acc dt = detailsFold acc ((qualRows dt).map mkDetail) := by
  unfold processDetailTable qualRows
  exact foldRows_eq (dt.drop 1) acc

lemma foldTables_eq (tables : List (List DetailRow)) :
    ∀ L : List Logement,
      tables.foldl processDetailTable L =
        detailsFold L ((tables.flatMap qualRows).map mkDetail) := by
  induction tables with
  | nil => intro L; rfl
  | cons dt ts ih =>
      intro L
      rw [List.foldl_cons, ih, processDetailTable_eq, List.flatMap_cons, List.map_append,
        detailsFold_append]

lemma get_residence_details_eq (doc : Doc) (rows : List (List String))
    (h : doc.tarifsTable = some rows) :
    get_residence_details doc = detailsFold (extractSummary rows) (qualDetails doc) := by
  unfold get_residence_details qualDetails
  rw [h]
  exact foldTables_eq doc.detailTables (extractSummary rows)

lemma extractSummary_fold (rows : List (List String)) :
    ∀ acc : List Logement,
      rows.foldl (fun acc cols => if cols.length < 5 then acc else acc ++ [extractRow cols])
          acc =
        acc ++ (rows.filter (fun cols => decide (¬ cols.length < 5))).map extractRow := by
  induction rows with
  | nil => intro acc; simp
  | cons cols rows ih =>
      intro acc
      by_cases h : cols.length < 5
      · simp [h, ih, List.filter_cons, List.append_assoc]
      · simp [h, Nat.not_lt.mp h, ih, List.filter_cons, List.append_assoc]

lemma extractSummary_eq (rows : List (List String)) :
    extractSummary rows =
      (rows.filter (fun cols => decide (¬ cols.length < 5))).map extractRow := by
  unfold extractSummary
  rw [extractSummary_fold]
  rfl

lemma extractSummary_details_none (rows : List (List String)) (l : Logement)
    (h : l ∈ extractSummary rows) : l.details = none := by
  rw [extractSummary_eq] at h
  rcases List.mem_map.mp h with ⟨cols, _, rfl⟩
  rfl

lemma transitions_congr (env env' : Env) (codes : List String)
    (hstate : env'.stateFile = env.stateFile)
    (hfetch : ∀ c, env'.fetchDoc c = env.fetchDoc c) :
    ∀ rs : List Residence,
      (runLoop rs env' codes).transitions = (runLoop rs env codes).transitions := by
  intro rs
  rw [runLoop_transitions, runLoop_transitions, hstate]
  induction rs with
  | nil => rfl
  | cons r rs ih =>
      rw [List.filterMap_cons, List.filterMap_cons,
        availOf_fetch_congr env env' _ codes r (hfetch r.code)]
      cases h : availOf env (load_previous_state env.stateFile) codes r <;> simp [h, ih]

/-! ### Concrete fixtures -/

/-- The first registry entry. -/
def resAlgo : Residence := ⟨"807G", "Algo", "Paris 13e"⟩

/-- The second registry entry. -/
def resJoliot : Residence := ⟨"788G", "Irène et François Joliot Curie", "Arcueil"⟩

/-- A detail page with one summary row and no detail tables. -/
def docSimple : Doc :=
  { tarifsTable := some [["T1", "2", "18", "Oui", "500 €"]], detailTables := [] }

/-- The unit `docSimple` extracts. -/
def unitSimple : Logement :=
  { type := "T1", nb_dispo := "2", surface := "18", meuble := "Oui",
    loyer := "500 €", details := none }

/-- A detail page whose one summary row carries a non-numeric
`nb_dispo`. -/
def docBadNb : Doc :=
  { tarifsTable := some [["T1", "N/A", "18", "Oui", "500 €"]], detailTables := [] }

/-- The unit `docBadNb` extracts: the raw text is kept as-is. -/
def unitBadNb : Logement :=
  { type := "T1", nb_dispo := "N/A", surface := "18", meuble := "Oui",
    loyer := "500 €", details := none }

/-- One summary row followed by a detail table holding a header row and
two qualifying detail rows. -/
def docTwoDetails : Doc :=
  { tarifsTable := some [["T1", "2", "18", "Oui", "500 €"]],
    detailTables :=
      [[ { cells := ["Surface", "Étage", "Disponible", "Loyer"], href := none },
         { cells := ["18", "2", "01/09/2026", "510 €"], href := some "resa1" },
         { cells := ["19", "3", "01/10/2026", "520 €"], href := none } ]] }

/-- A run where the one available residence's detail fetch fails. -/
def envFetchFail : Env :=
  { scanOutcome := .ok ["807G"], stateFile := none,
    fetchDoc := fun _ => .error "ConnectionError", telegramConfigured := true,
    tgOutcome := .delivered }

/-- A run where `807G` fetches fine and `788G` fails. -/
def envPartialFail : Env :=
  { scanOutcome := .ok ["807G", "788G"], stateFile := none,
    fetchDoc := fun c => if c == "807G" then .ok docSimple else .error "ConnectionError",
    telegramConfigured := true, tgOutcome := .delivered }

/-- A run starting from a snapshot holding an entry for a code that is
not in the registry. -/
def envStale : Env :=
  { scanOutcome := .ok [], stateFile := some [("999Z", .DISPONIBLE)],
    fetchDoc := fun _ => .error "ConnectionError", telegramConfigured := false,
    tgOutcome := .delivered }

/-- A run where the one available residence's page carries a non-numeric
`nb_dispo`. -/
def envBadNb : Env :=
  { scanOutcome := .ok ["807G"], stateFile := none,
    fetchDoc := fun _ => .ok docBadNb, telegramConfigured := true,
    tgOutcome := .delivered }

/-- A fully successful run with one newly available residence. -/
def envHappy : Env :=
  { scanOutcome := .ok ["807G"], stateFile := none,
    fetchDoc := fun _ => .ok docSimple, telegramConfigured := true,
    tgOutcome := .delivered }

/-! ### Claims -/

/-- C1 (amended): for every resource processed in a run, a transition
fires iff the summary scan flags it available, its detail fetch and
unit-count sum both succeed, and its prior snapshot status — defaulting
to UNAVAILABLE when the resource is absent, including the cold-start case
of no snapshot file, which loads as the empty mapping — is not AVAILABLE;
and a resource flagged available in one run never fires a transition in
the immediately following run, so a resource that stays available
produces at most one transition, until it cycles back through
UNAVAILABLE. -/
theorem transition_fires_iff :
    (∀ (rs : List Residence) (env : Env) (codes : List String) (res : Residence),
      res ∈ rs →
      (firesFor (runLoop rs env codes) res.code ↔
        codes.contains res.code = true ∧
        (∃ doc, env.fetchDoc res.code = Except.ok doc ∧
          (sumNbDispo (get_residence_details doc)).isSome) ∧
        (lookupStatus (load_previous_state env.stateFile) res.code).getD
            Status.INDISPONIBLE ≠ Status.DISPONIBLE)) ∧
    (∀ (rs : List Residence) (env1 env2 : Env) (codes1 codes2 : List String)
        (res : Residence),
      res ∈ rs → codes1.contains res.code = true →
      env2.stateFile = some (runLoop rs env1 codes1).persisted →
      ¬ firesFor (runLoop rs env2 codes2) res.code) := by
  constructor
  · intro rs env codes res hmem
    rw [firesFor_iff rs env codes res hmem]
    exact availOf_isSome_iff env _ codes res
  · exact fun rs env1 env2 codes1 codes2 res => no_refire rs env1 env2 codes1 codes2 res

/-- C1 counterexample: a run over the real registry in which the summary
scan flags `807G` available, there is no prior snapshot, and the detail
fetch for `807G` fails: the claim's condition (current AVAILABLE, prior
not AVAILABLE) holds, yet no transition fires. -/
theorem transition_fires_iff_cex :
    resAlgo ∈ RESIDENCES ∧
    (["807G"] : List String).contains "807G" = true ∧
    lookupStatus (load_previous_state envFetchFail.stateFile) "807G" = none ∧
    (runLoop RESIDENCES envFetchFail ["807G"]).transitions = [] := by
  refine ⟨by decide, rfl, rfl, by decide⟩

/-- C2 (amended): when a resource's detail retrieval fails, the failure
is confined to it: its detail is recorded as the empty unit list, its
status is still recorded from the summary scan (AVAILABLE), and the
transitions of resources with other codes are exactly what they would
have been had this resource's fetch behaved differently; however the
failing resource's own transition is NOT collected, and hence not
notified, in that run. -/
theorem failure_isolated :
    ∀ (rs : List Residence) (env : Env) (codes : List String) (res : Residence)
      (e : String),
      res ∈ rs → codes.contains res.code = true →
      env.fetchDoc res.code = Except.error e →
      lookupStatus (runLoop rs env codes).persisted res.code =
          some Status.DISPONIBLE ∧
      (res, ([] : List Logement)) ∈ (runLoop rs env codes).allResults ∧
      ¬ firesFor (runLoop rs env codes) res.code ∧
      (∀ env' : Env, env'.stateFile = env.stateFile →
        (∀ c, c ≠ res.code → env'.fetchDoc c = env.fetchDoc c) →
        (runLoop rs env' codes).transitions.filter
            (fun a => !(a.url == residenceUrl res.code)) =
          (runLoop rs env codes).transitions.filter
            (fun a => !(a.url == residenceUrl res.code))) := by
  intro rs env codes res e hmem hc hf
  refine ⟨?_, ?_, ?_, ?_⟩
  · rw [lookup_persisted_mem rs env codes res hmem]
    have hm : res.code ∈ codes := by simpa using hc
    simp [statusOfCode, hm]
  · apply mem_allResults rs env codes res _ hmem
    simp [resultsOf, hc, hf]
  · intro hfires
    have hsome := (firesFor_iff rs env codes res hmem).mp hfires
    rcases (availOf_isSome_iff _ _ _ _).mp hsome with ⟨_, ⟨doc, hdoc, _⟩, _⟩
    rw [hf] at hdoc
    cases hdoc
  · intro env' hstate hfetch
    exact filter_transitions_congr env env' codes res.code hstate hfetch rs

/-- C2 witness: in the concrete partial-failure run, `788G` flips to
available but its fetch fails: its status is recorded, its detail is
empty, it does not fire, and the other transitions are stable under
changes to its fetch outcome. -/
theorem failure_isolated_wit :
    lookupStatus (runLoop RESIDENCES envPartialFail ["807G", "788G"]).persisted
        resJoliot.code = some Status.DISPONIBLE ∧
    (resJoliot, ([] : List Logement)) ∈
      (runLoop RESIDENCES envPartialFail ["807G", "788G"]).allResults ∧
    ¬ firesFor (runLoop RESIDENCES envPartialFail ["807G", "788G"]) resJoliot.code ∧
    (∀ env' : Env, env'.stateFile = envPartialFail.stateFile →
      (∀ c, c ≠ resJoliot.code → env'.fetchDoc c = envPartialFail.fetchDoc c) →
      (runLoop RESIDENCES env' ["807G", "788G"]).transitions.filter
          (fun a => !(a.url == residenceUrl resJoliot.code)) =
        (runLoop RESIDENCES envPartialFail ["807G", "788G"]).transitions.filter
          (fun a => !(a.url == residenceUrl resJoliot.code))) :=
  failure_isolated RESIDENCES envPartialFail ["807G", "788G"] resJoliot
    "ConnectionError" (by decide) (by decide) rfl

/-- C2 counterexample: in the same run, `788G` satisfies the transition
condition (available now, absent from the prior snapshot) and its fetch
fails; the claim says it is still marked transitioned and notified, but
the run's only transition is `807G`'s. -/
theorem failure_isolated_cex :
    (["807G", "788G"] : List String).contains "788G" = true ∧
    lookupStatus (load_previous_state envPartialFail.stateFile) "788G" = none ∧
    (runLoop RESIDENCES envPartialFail ["807G", "788G"]).transitions.map Avail.url =
      [residenceUrl "807G"] ∧
    lookupStatus (runLoop RESIDENCES envPartialFail ["807G", "788G"]).persisted "788G" =
      some Status.DISPONIBLE := by
  refine ⟨rfl, rfl, by decide, by decide⟩

/-- C3 (amended): after a run the persisted snapshot holds exactly the
current run's entries — one per registry resource, with the status read
off the summary scan. The file is rewritten wholesale without consulting
the prior snapshot, so a prior entry whose code is not in the registry is
NOT retained. Every registry resource receives an entry in every run
(status determination precedes the fallible fetch), so within the
registry no entry is ever missing. -/
theorem snapshot_after_run :
    ∀ (rs : List Residence) (env : Env) (codes : List String),
      (∀ res ∈ rs, lookupStatus (runLoop rs env codes).persisted res.code =
        some (statusOfCode codes res.code)) ∧
      (∀ c : String, (∀ r ∈ rs, r.code ≠ c) →
        lookupStatus (runLoop rs env codes).persisted c = none) ∧
      (∀ file : Option Snapshot,
        (runLoop rs { env with stateFile := file } codes).persisted =
          (runLoop rs env codes).persisted) := by
  intro rs env codes
  refine ⟨fun res hmem => lookup_persisted_mem rs env codes res hmem,
    fun c h => lookup_persisted_not_mem rs env codes c h, fun file => ?_⟩
  rw [runLoop_persisted, runLoop_persisted]

/-- C3 counterexample: a prior snapshot holds `999Z`, a code not in the
registry; after the run, the persisted snapshot no longer holds any entry
for `999Z` — the save deleted it, where the claim says prior entries for
unprocessed resources are retained and never deleted. -/
theorem snapshot_after_run_cex :
    lookupStatus (load_previous_state envStale.stateFile) "999Z" =
      some Status.DISPONIBLE ∧
    RESIDENCES.all (fun r => !(r.code == "999Z")) = true ∧
    lookupStatus (runLoop RESIDENCES envStale []).persisted "999Z" = none := by
  refine ⟨rfl, by decide, by decide⟩

/-- C4: the snapshot save is the first post-loop effect, strictly before
any notification activity; the persisted snapshot and the collected
transitions are unchanged under any notification outcome, and the run
still reaches its final summary event when delivery fails (the failure is
swallowed); and once a run has recorded a resource available, a following
run loading that snapshot cannot fire the same transition again. -/
theorem save_before_notify :
    ∀ (rs : List Residence) (env : Env) (codes : List String),
      (∃ tail, (runLoop rs env codes).events =
        Event.saveState (runLoop rs env codes).persisted :: Event.writeHtml :: tail) ∧
      (∀ o : TgOutcome,
        (runLoop rs { env with tgOutcome := o } codes).persisted =
          (runLoop rs env codes).persisted ∧
        (runLoop rs { env with tgOutcome := o } codes).transitions =
          (runLoop rs env codes).transitions ∧
        ∃ n, (runLoop rs { env with tgOutcome := o } codes).events.getLast? =
          some (Event.runSummary n)) ∧
      (∀ (env2 : Env) (codes2 : List String) (res : Residence),
        res ∈ rs → codes.contains res.code = true →
        env2.stateFile = some (runLoop rs env codes).persisted →
        ¬ firesFor (runLoop rs env2 codes2) res.code) := by
  intro rs env codes
  refine ⟨⟨_, runLoop_events rs env codes⟩, fun o => ⟨?_, ?_, ?_⟩,
    fun env2 codes2 res hmem hc hst => no_refire rs env env2 codes codes2 res hmem hc hst⟩
  · rw [runLoop_persisted, runLoop_persisted]
  · exact transitions_congr env { env with tgOutcome := o } codes rfl (fun _ => rfl) rs
  · refine ⟨((runLoop rs { env with tgOutcome := o } codes).allResults.filter
        (fun p => !p.2.isEmpty)).length, ?_⟩
    rw [runLoop_events]
    rw [show ∀ (a b : Event) (l : List Event) (x : Event),
        a :: b :: (l ++ [x]) = (a :: b :: l) ++ [x] from fun a b l x => by simp,
      List.getLast?_concat]

/-- C5 (amended): `save_state` overwrites the snapshot file wholesale —
after its operations the file holds exactly the serialization of the new
snapshot, whatever the old contents — but it is NOT atomic: it truncates
the file in place before writing, so an observer (or a kill) between the
two operations sees an empty file rather than the old or new contents. -/
theorem save_wholesale_truncate_write :
    ∀ (old : String) (state : Snapshot),
      applyOps old (save_state_ops state) = serializeState state ∧
      applyOps old ((save_state_ops state).take 1) = "" := by
  intro old state
  exact ⟨rfl, rfl⟩

/-- C5 counterexample: saving a snapshot over a nonempty old snapshot
file is not atomic: after the truncate — the first of the two file
operations — the file is empty, which is neither the old contents nor
the new contents. -/
theorem save_atomic_cex :
    applyOps (serializeState [("807G", Status.DISPONIBLE)])
        ((save_state_ops [("807G", Status.INDISPONIBLE)]).take 1) = "" ∧
    ¬ atomicSave (save_state_ops [("807G", Status.INDISPONIBLE)])
        (serializeState [("807G", Status.DISPONIBLE)])
        (serializeState [("807G", Status.INDISPONIBLE)]) := by
  refine ⟨rfl, fun h => ?_⟩
  rcases h [FileOp.truncate]
      [FileOp.write (serializeState [("807G", Status.INDISPONIBLE)])] rfl with h1 | h1 <;>
    exact absurd h1 (by decide)

/-- C6: on a page whose tariff table is present, pass 2 appends every
qualifying detail row (header skipped, at least 4 cells) to the LAST unit
of pass 1, in order — so the full batch of detail entries ends up on that
single last unit — and when pass 1 yielded no units the detail rows are
silently dropped and the result is the empty list. -/
theorem detail_rows_attach_last :
    ∀ (doc : Doc) (rows : List (List String)),
      doc.tarifsTable = some rows →
      (extractSummary rows = [] → get_residence_details doc = []) ∧
      (∀ (L0 : List Logement) (u : Logement),
        extractSummary rows = L0 ++ [u] →
        get_residence_details doc = L0 ++ [attachAll u (qualDetails doc)]) := by
  intro doc rows h
  constructor
  · intro he
    rw [get_residence_details_eq doc rows h, he, detailsFold_nil_units]
  · intro L0 u he
    rw [get_residence_details_eq doc rows h, he, detailsFold_concat]

/-- C6 witness: one summary row followed by a detail table with a header
and two qualifying rows — both detail entries attach to the single
unit. -/
theorem detail_rows_attach_last_wit :
    get_residence_details docTwoDetails =
      [] ++ [attachAll unitSimple (qualDetails docTwoDetails)] :=
  (detail_rows_attach_last docTwoDetails [["T1", "2", "18", "Oui", "500 €"]] rfl).2
    [] unitSimple (by decide)

/-- C7 (amended): extraction never crashes on a non-numeric `nb_dispo` —
the raw text is stored as-is — but in `main` the unit-count sum raises on
it; the exception is caught at the per-resource boundary, so the run
continues and the resource's status is still recorded from the summary
scan, but its extracted units are additionally re-recorded as empty and
its transition is suppressed: the value is neither coerced to 0 nor is
the single row rejected. -/
theorem nonnumeric_nb_dispo :
    ∀ (rs : List Residence) (env : Env) (codes : List String) (res : Residence)
      (doc : Doc),
      res ∈ rs → codes.contains res.code = true →
      env.fetchDoc res.code = Except.ok doc →
      sumNbDispo (get_residence_details doc) = none →
      lookupStatus (runLoop rs env codes).persisted res.code =
          some Status.DISPONIBLE ∧
      (res, get_residence_details doc) ∈ (runLoop rs env codes).allResults ∧
      (res, ([] : List Logement)) ∈ (runLoop rs env codes).allResults ∧
      ¬ firesFor (runLoop rs env codes) res.code := by
  intro rs env codes res doc hmem hc hf hs
  refine ⟨?_, ?_, ?_, ?_⟩
  · rw [lookup_persisted_mem rs env codes res hmem]
    have hm : res.code ∈ codes := by simpa using hc
    simp [statusOfCode, hm]
  · apply mem_allResults rs env codes res _ hmem
    have hm : res.code ∈ codes := by simpa using hc
    simp [resultsOf, hm, hf, hs]
  · apply mem_allResults rs env codes res _ hmem
    have hm : res.code ∈ codes := by simpa using hc
    simp [resultsOf, hm, hf, hs]
  · intro hfires
    have hsome := (firesFor_iff rs env codes res hmem).mp hfires
    rcases (availOf_isSome_iff _ _ _ _).mp hsome with ⟨_, ⟨doc', hdoc', hsum'⟩, _⟩
    rw [hf] at hdoc'
    cases hdoc'
    rw [hs] at hsum'
    simp at hsum'

/-- C7 witness: the concrete bad-page run, instantiating the amended
claim. -/
theorem nonnumeric_nb_dispo_wit :
    lookupStatus (runLoop RESIDENCES envBadNb ["807G"]).persisted resAlgo.code =
        some Status.DISPONIBLE ∧
    (resAlgo, get_residence_details docBadNb) ∈
      (runLoop RESIDENCES envBadNb ["807G"]).allResults ∧
    (resAlgo, ([] : List Logement)) ∈
      (runLoop RESIDENCES envBadNb ["807G"]).allResults ∧
    ¬ firesFor (runLoop RESIDENCES envBadNb ["807G"]) resAlgo.code :=
  nonnumeric_nb_dispo RESIDENCES envBadNb ["807G"] resAlgo docBadNb (by decide)
    (by decide) rfl (by decide)

/-- C7 counterexample: with `nb_dispo = "N/A"`, extraction keeps the raw
text (the value is not coerced to 0 and the row is not rejected), and the
resource's processing takes the exception path: its transition is
suppressed and its results are recorded twice, the second time empty —
contradicting the claim that the processing of the resource does not
crash and the value is coerced or the row rejected. -/
theorem nonnumeric_nb_dispo_cex :
    get_residence_details docBadNb = [unitBadNb] ∧
    unitBadNb.nb_dispo = "N/A" ∧
    pyInt? "N/A" = none ∧
    sumNbDispo (get_residence_details docBadNb) = none ∧
    (["807G"] : List String).contains "807G" = true ∧
    lookupStatus (load_previous_state envBadNb.stateFile) "807G" = none ∧
    (runLoop RESIDENCES envBadNb ["807G"]).transitions = [] ∧
    (runLoop RESIDENCES envBadNb ["807G"]).allResults.take 2 =
      [(resAlgo, [unitBadNb]), (resAlgo, [])] := by
  refine ⟨by decide, rfl, rfl, by decide, rfl, rfl, by decide, by decide⟩

/-- C8: `get_available_codes` runs outside every handler, so its failure
aborts the run with that error; once it has succeeded, the run always
completes — whatever the per-resource fetch outcomes, extraction results
and notification outcome — and ends with the final summary event. -/
theorem run_completes_unless_scan_fails :
    ∀ (rs : List Residence) (env : Env),
      (∀ e, env.scanOutcome = Except.error e → main rs env = Except.error e) ∧
      (∀ codes, env.scanOutcome = Except.ok codes →
        main rs env = Except.ok (runLoop rs env codes) ∧
        ∃ n, (runLoop rs env codes).events.getLast? = some (Event.runSummary n)) := by
  intro rs env
  constructor
  · intro e he
    unfold main
    rw [he]
  · intro codes hc
    unfold main
    rw [hc]
    refine ⟨rfl,
      ((runLoop rs env codes).allResults.filter (fun p => !p.2.isEmpty)).length, ?_⟩
    rw [runLoop_events]
    rw [show ∀ (a b : Event) (l : List Event) (x : Event),
        a :: b :: (l ++ [x]) = (a :: b :: l) ++ [x] from fun a b l x => by simp,
      List.getLast?_concat]

/-- C9: the events of a run contain exactly one `telegramCall`, carrying
the single message that aggregates the whole transition list, when at
least one transition fired — and no call at all when none fired. -/
theorem one_aggregated_message :
    ∀ (rs : List Residence) (env : Env) (codes : List String),
      (runLoop rs env codes).events.filter isTelegramCall =
        (if (runLoop rs env codes).transitions.isEmpty then []
         else [Event.telegramCall (buildMsg (runLoop rs env codes).transitions)]) := by
  intro rs env codes
  rw [runLoop_events]
  cases h : (runLoop rs env codes).transitions.isEmpty
  · rw [if_neg (by simp [h])]
    cases env.telegramConfigured <;> cases env.tgOutcome <;>
      simp [h, send_telegram_events, isTelegramCall]
  · rw [if_pos (by simp [h])]
    simp [h, isTelegramCall]

/-- C10: a unit to which no detail row was attached carries no `details`
key at all: no extracted unit ever has `some []` there (the key is
created only when the first detail row is appended, and then the list is
nonempty), and on a page with no qualifying detail rows every extracted
unit has the key absent. -/
theorem details_key_absent_not_empty :
    ∀ (doc : Doc) (l : Logement), l ∈ get_residence_details doc →
      l.details ≠ some [] ∧ (qualDetails doc = [] → l.details = none) := by
  intro doc l hl
  cases hdoc : doc.tarifsTable with
  | none =>
      unfold get_residence_details at hl
      rw [hdoc] at hl
      exact absurd hl (List.not_mem_nil l)
  | some rows =>
      rw [get_residence_details_eq doc rows hdoc] at hl
      rcases List.eq_nil_or_concat (extractSummary rows) with he | ⟨L0, u, he⟩
      · rw [he, detailsFold_nil_units] at hl
        exact absurd hl (List.not_mem_nil l)
      · rw [List.concat_eq_append] at he
        rw [he, detailsFold_concat] at hl
        rcases List.mem_append.mp hl with hmem | hmem
        · have : l.details = none :=
            extractSummary_details_none rows l (he ▸ List.mem_append_left [u] hmem)
          simp [this]
        · have hlu : l = attachAll u (qualDetails doc) := List.mem_singleton.mp hmem
          have hu : u.details = none :=
            extractSummary_details_none rows u
              (he ▸ List.mem_append_right L0 (List.mem_singleton_self u))
          cases hq : qualDetails doc with
          | nil => simp [hlu, hq, attachAll, hu]
          | cons d ds =>
              rw [hlu, hq, attachAll_cons, hu]
              simp

/-- C10 witness: the unit extracted from a page with no detail tables has
its `details` field absent, not the empty list. -/
theorem details_key_absent_not_empty_wit :
    unitSimple.details ≠ some [] ∧
    (qualDetails docSimple = [] → unitSimple.details = none) :=
  details_key_absent_not_empty docSimple unitSimple (by decide)

end Studefi
